import Mathlib

/-!
Shallow embedding of the market-data quote service in `src/main.py`.

Modelling conventions:
* Decoded JSON / Python runtime values are the inductive `PyVal`.
* Python `float` values are the inductive `PyFloat`: an exact rational, or a
  non-finite value (`inf`, `-inf`, `nan`). String parsing accepts finite
  decimal literals (optional sign, decimal point, exponent, underscores
  between digits) and the non-finite spellings "inf"/"infinity"/"nan"
  (case-insensitive, signed), as Python `float(str)` does; a magnitude at or
  above 2^1024 overflows to the signed infinity as in IEEE-754. Binary
  rounding, signed zero and gradual underflow are not modelled: finite values
  stay exact rationals. Arithmetic on non-finite values follows IEEE-754
  (inf - inf = nan, nan propagates, ...).
* A Python expression that may raise is an `Option`-valued computation;
  `Option.none` is a raised exception, caught by the enclosing `try`.
* The network layer (`requests.get` + `raise_for_status` + `.json()`) is an
  oracle parameter `net`; the process environment is an oracle `env`.
-/

/-- A Python `float`: an exact finite rational, or a non-finite IEEE-754
value. -/
inductive PyFloat where
  | fin (q : Rat)
  | inf
  | ninf
  | nan
deriving Repr

/-- Python `x == 0` on a float: true only for the finite zero (infinities and
nan compare unequal to 0). This is the polygon branch's guard. -/
def PyFloat.eqZero : PyFloat → Bool
  | .fin q => q == 0
  | _ => false

/-- IEEE-754 subtraction on the `PyFloat` domain: `inf - inf = nan`, nan
propagates, finite values subtract exactly. -/
def PyFloat.sub : PyFloat → PyFloat → PyFloat
  | .nan, _ => .nan
  | _, .nan => .nan
  | .fin a, .fin b => .fin (a - b)
  | .inf, .inf => .nan
  | .inf, _ => .inf
  | .ninf, .ninf => .nan
  | .ninf, _ => .ninf
  | .fin _, .inf => .ninf
  | .fin _, .ninf => .inf

/-- IEEE-754 division on the `PyFloat` domain. A finite-zero denominator
would raise `ZeroDivisionError` in Python; that case is unreachable in the
code modelled here (the polygon branch divides only under the `prev == 0`
guard), so it is given the inert value `nan`. -/
def PyFloat.div : PyFloat → PyFloat → PyFloat
  | .nan, _ => .nan
  | _, .nan => .nan
  | .fin a, .fin b => if b == 0 then .nan else .fin (a / b)
  | .fin _, .inf => .fin 0
  | .fin _, .ninf => .fin 0
  | .inf, .fin b => if b < 0 then .ninf else .inf
  | .ninf, .fin b => if b < 0 then .inf else .ninf
  | .inf, .inf => .nan
  | .inf, .ninf => .nan
  | .ninf, .inf => .nan
  | .ninf, .ninf => .nan

/-- IEEE-754 multiplication on the `PyFloat` domain: nan propagates,
`inf * 0 = nan`, signs multiply. -/
def PyFloat.mul : PyFloat → PyFloat → PyFloat
  | .nan, _ => .nan
  | _, .nan => .nan
  | .fin a, .fin b => .fin (a * b)
  | .inf, .fin b => if b == 0 then .nan else if b < 0 then .ninf else .inf
  | .fin a, .inf => if a == 0 then .nan else if a < 0 then .ninf else .inf
  | .ninf, .fin b => if b == 0 then .nan else if b < 0 then .inf else .ninf
  | .fin a, .ninf => if a == 0 then .nan else if a < 0 then .inf else .ninf
  | .inf, .inf => .inf
  | .inf, .ninf => .ninf
  | .ninf, .inf => .ninf
  | .ninf, .ninf => .inf

/-- A decoded JSON / Python runtime value. -/
inductive PyVal where
  | vnone
  | vbool (b : Bool)
  | vint (n : Int)
  | vfloat (x : PyFloat)
  | vstr (s : String)
  | vlist (xs : List PyVal)
  | vdict (kvs : List (String × PyVal))
deriving Repr

/-- Python truthiness (`bool(x)`); a float is falsy exactly when it compares
equal to 0, so `inf` and `nan` are truthy. -/
def PyVal.truthy : PyVal → Bool
  | .vnone => false
  | .vbool b => b
  | .vint n => n != 0
  | .vfloat x => !x.eqZero
  | .vstr s => !s.isEmpty
  | .vlist xs => !xs.isEmpty
  | .vdict kvs => !kvs.isEmpty

/-- Python `x or y`. -/
def pyOr (x y : PyVal) : PyVal := if x.truthy then x else y

/-- Python `obj.get(k, d)`; raises (`Option.none`) when `obj` is not a dict. -/
def pyGetD : PyVal → String → PyVal → Option PyVal
  | .vdict kvs, k, d => some ((List.lookup k kvs).getD d)
  | _, _, _ => Option.none

/-- Numeric value of a list of decimal digits. -/
def digitsVal (cs : List Char) : Nat :=
  cs.foldl (fun a c => a * 10 + (c.toNat - 48)) 0

/-- Consume a run of decimal digits that may be grouped by single underscores
placed strictly between digits (Python numeric-literal grouping: `1_0` is
valid, `_1`, `1_`, `1__0` are not). Returns the digits (underscores removed)
and the unconsumed rest. -/
def takeDigitsU : List Char → List Char × List Char
  | [] => ([], [])
  | c :: '_' :: rest2 =>
    if c.isDigit then
      match takeDigitsU rest2 with
      | ([], _) => ([c], '_' :: rest2)
      | (ds, r) => (c :: ds, r)
    else ([], c :: '_' :: rest2)
  | c :: rest =>
    if c.isDigit then
      let p := takeDigitsU rest
      (c :: p.1, p.2)
    else ([], c :: rest)

/-- The IEEE-754 double overflow bound, `2^1024` written out as a literal (a
power expression would not reduce during concrete evaluation): a decimal
magnitude at or above it converts to the signed infinity (rounding below the
bound is not modelled; such values stay exact rationals). -/
def overflowBound : Rat :=
  (179769313486231590772930519078902473361797697894230657273430081157732675805500963132708477322407536021120113879871393357658789768814416622492847430639474124377767893424865485276302219601246094119453082952085005768838150682342462881473913110540827237163350510684586298239947245938479716304835356329624224137216 : Rat)

/-- Classify a parsed sign and magnitude as a `PyFloat`, overflowing to the
signed infinity at `2^1024` as `float(str)` does. -/
def mkFloat (sign : Int) (mag : Rat) : PyFloat :=
  if overflowBound ≤ mag then (if sign ≥ 0 then .inf else .ninf)
  else .fin (sign * mag)

/-- Parse a float literal the way Python `float(str)` does (after whitespace
stripping): optional sign, then either a non-finite spelling
("inf"/"infinity"/"nan", case-insensitive) or digits with an optional decimal
point and exponent, with underscore grouping; magnitudes at or above `2^1024`
overflow to the signed infinity. -/
def parseFloat (s : String) : Option PyFloat :=
  let cs := s.toList
  let signAndRest : Int × List Char :=
    match cs with
    | '+' :: r => (1, r)
    | '-' :: r => (-1, r)
    | _ => (1, cs)
  let sign := signAndRest.1
  let cs1 := signAndRest.2
  let lowered := cs1.map Char.toLower
  if lowered == ['i', 'n', 'f'] ||
     lowered == ['i', 'n', 'f', 'i', 'n', 'i', 't', 'y'] then
    some (if sign ≥ 0 then .inf else .ninf)
  else if lowered == ['n', 'a', 'n'] then some .nan
  else
  let ip := takeDigitsU cs1
  let intPart := ip.1
  let cs2 := ip.2
  let fracAndRest : List Char × List Char :=
    match cs2 with
    | '.' :: r =>
      let fp := takeDigitsU r
      (fp.1, fp.2)
    | _ => ([], cs2)
  let fracPart := fracAndRest.1
  let cs3 := fracAndRest.2
  if intPart.isEmpty && fracPart.isEmpty then Option.none else
  let mantissa : Rat :=
    (digitsVal intPart : Rat) + (digitsVal fracPart : Rat) / ((10 : Rat) ^ fracPart.length)
  match cs3 with
  | [] => some (mkFloat sign mantissa)
  | c :: r =>
    if c == 'e' || c == 'E' then
      let esignAndRest : Int × List Char :=
        match r with
        | '+' :: r2 => (1, r2)
        | '-' :: r2 => (-1, r2)
        | _ => (1, r)
      let esign := esignAndRest.1
      let r1 := esignAndRest.2
      let ep := takeDigitsU r1
      let eDigits := ep.1
      let r2 := ep.2
      if eDigits.isEmpty || !r2.isEmpty then Option.none
      else
        let scale : Rat := (10 : Rat) ^ digitsVal eDigits
        some (mkFloat sign (mantissa * (if esign ≥ 0 then scale else 1 / scale)))
    else Option.none

/-- Whitespace trimming on both ends (Python `str.strip()` and the implicit
stripping done by `float(str)`). -/
def trimWS (s : String) : String :=
  String.mk (((s.toList.dropWhile Char.isWhitespace).reverse.dropWhile
      Char.isWhitespace).reverse)

/-- Python `float(x)`: numbers and bools coerce (an int whose magnitude
reaches the double range raises `OverflowError`), strings are parsed after
stripping surrounding whitespace, everything else raises. -/
def pyFloat : PyVal → Option PyFloat
  | .vnone => Option.none
  | .vbool b => some (.fin (if b then 1 else 0))
  | .vint n => if overflowBound ≤ ((n.natAbs : Nat) : Rat) then Option.none
               else some (.fin (n : Rat))
  | .vfloat x => some x
  | .vstr s => parseFloat (trimWS s)
  | .vlist _ => Option.none
  | .vdict _ => Option.none

/-- Python `s.strip("%")` on a string value; raises `AttributeError`
(`Option.none`) on any non-string value. -/
def pyStripPercent : PyVal → Option String
  | .vstr s =>
      some (String.mk (((s.toList.dropWhile (· == '%')).reverse.dropWhile (· == '%')).reverse))
  | _ => Option.none

/-- Python `x[0]`: list indexing (IndexError on empty), string indexing,
everything else raises (KeyError / TypeError). -/
def pyIndex0 : PyVal → Option PyVal
  | .vlist (x :: _) => some x
  | .vlist [] => Option.none
  | .vstr s =>
      match s.toList with
      | c :: _ => some (.vstr (String.mk [c]))
      | [] => Option.none
  | _ => Option.none

/-- The pattern `float(obj.get(k, d) or 0)` — the numeric coercion used by
every provider branch of `normalize_quote`. -/
def getFloat (obj : PyVal) (k : String) (d : PyVal) : Option PyFloat := do
  let v ← pyGetD obj k d
  pyFloat (pyOr v (.vint 0))

/-- The canonical-quote dict literal `{**base, "price": ..., ...}` built by
each successful provider branch of `normalize_quote`, key order as in the
source. -/
def quoteRecord (symbol provider : String)
    (price changePercent o h l pc ts : PyVal) : List (String × PyVal) :=
  [("symbol", .vstr symbol), ("provider", .vstr provider), ("price", price),
   ("changePercent", changePercent), ("open", o), ("high", h), ("low", l),
   ("previousClose", pc), ("timestamp", ts)]

/-- The minimal fallback record `{**base, "price": 0.0, "changePercent": 0.0}`
returned when no provider branch matches or a branch raised. -/
def fallbackRecord (symbol provider : String) : List (String × PyVal) :=
  [("symbol", .vstr symbol), ("provider", .vstr provider),
   ("price", .vfloat (.fin 0)), ("changePercent", .vfloat (.fin 0))]

/-- Field extraction of the `alpha_vantage` branch of `normalize_quote`:
(price, changePercent, open, high, low, previousClose, timestamp). -/
def avNums (raw : PyVal) :
    Option (PyFloat × PyFloat × PyFloat × PyFloat × PyFloat × PyFloat × PyVal) := do
  let gq ← pyGetD raw "Global Quote" (.vdict [])
  let price ← getFloat gq "05. price" (.vint 0)
  let cpRaw ← pyGetD gq "10. change percent" (.vstr "0%")
  let cpStr ← pyStripPercent (pyOr cpRaw (.vstr "0"))
  let cp ← pyFloat (.vstr cpStr)
  let o ← getFloat gq "02. open" (.vint 0)
  let h ← getFloat gq "03. high" (.vint 0)
  let l ← getFloat gq "04. low" (.vint 0)
  let pc ← getFloat gq "08. previous close" (.vint 0)
  let ts ← pyGetD gq "07. latest trading day" .vnone
  pure (price, cp, o, h, l, pc, ts)

/-- The `alpha_vantage` branch: `Option.none` models the raised exception. -/
def avRecord (symbol provider : String) (raw : PyVal) :
    Option (List (String × PyVal)) :=
  (avNums raw).map fun (price, cp, o, h, l, pc, ts) =>
    quoteRecord symbol provider (.vfloat price) (.vfloat cp) (.vfloat o)
      (.vfloat h) (.vfloat l) (.vfloat pc) ts

/-- Field extraction of the `finnhub` branch. -/
def fhNums (raw : PyVal) :
    Option (PyFloat × PyFloat × PyFloat × PyFloat × PyFloat × PyFloat × PyVal) := do
  let price ← getFloat raw "c" .vnone
  let cp ← getFloat raw "dp" .vnone
  let o ← getFloat raw "o" .vnone
  let h ← getFloat raw "h" .vnone
  let l ← getFloat raw "l" .vnone
  let pc ← getFloat raw "pc" .vnone
  let ts ← pyGetD raw "t" .vnone
  pure (price, cp, o, h, l, pc, ts)

/-- The `finnhub` branch. -/
def fhRecord (symbol provider : String) (raw : PyVal) :
    Option (List (String × PyVal)) :=
  (fhNums raw).map fun (price, cp, o, h, l, pc, ts) =>
    quoteRecord symbol provider (.vfloat price) (.vfloat cp) (.vfloat o)
      (.vfloat h) (.vfloat l) (.vfloat pc) ts

/-- Field extraction of the `twelve` branch. -/
def twNums (raw : PyVal) :
    Option (PyFloat × PyFloat × PyFloat × PyFloat × PyFloat × PyFloat × PyVal) := do
  let price ← getFloat raw "price" .vnone
  let cp ← getFloat raw "percent_change" .vnone
  let o ← getFloat raw "open" .vnone
  let h ← getFloat raw "high" .vnone
  let l ← getFloat raw "low" .vnone
  let pc ← getFloat raw "previous_close" .vnone
  let ts ← pyGetD raw "timestamp" .vnone
  pure (price, cp, o, h, l, pc, ts)

/-- The `twelve` branch. -/
def twRecord (symbol provider : String) (raw : PyVal) :
    Option (List (String × PyVal)) :=
  (twNums raw).map fun (price, cp, o, h, l, pc, ts) =>
    quoteRecord symbol provider (.vfloat price) (.vfloat cp) (.vfloat o)
      (.vfloat h) (.vfloat l) (.vfloat pc) ts

/-- Field extraction of the `polygon` branch:
(close, open, high, low, prev, timestamp); note that `prev` is read from the
same `"c"` field as `close`, exactly as in the source. -/
def polyNums (raw : PyVal) :
    Option (PyFloat × PyFloat × PyFloat × PyFloat × PyFloat × PyVal) := do
  let results ← pyGetD raw "results" .vnone
  let res0 ← pyIndex0 (pyOr results (.vlist [.vdict []]))
  let close ← getFloat res0 "c" .vnone
  let o ← getFloat res0 "o" .vnone
  let h ← getFloat res0 "h" .vnone
  let l ← getFloat res0 "l" .vnone
  let prev ← getFloat res0 "c" .vnone
  let ts ← pyGetD res0 "t" .vnone
  pure (close, o, h, l, prev, ts)

/-- The `polygon` branch, with the division-by-zero guard
`0.0 if prev == 0 else ((close - prev) / prev) * 100` (float comparison and
IEEE-754 arithmetic on the `PyFloat` domain). -/
def polyRecord (symbol provider : String) (raw : PyVal) :
    Option (List (String × PyVal)) :=
  (polyNums raw).map fun (close, o, h, l, prev, ts) =>
    quoteRecord symbol provider (.vfloat close)
      (.vfloat (if prev.eqZero then .fin 0
                else ((close.sub prev).div prev).mul (.fin 100)))
      (.vfloat o) (.vfloat h) (.vfloat l) (.vfloat prev) ts

/-- Field extraction of the `fmp` branch: only `price` is float-coerced;
`open`/`dayHigh`/`dayLow`/`previousClose`/`timestamp` pass through with an
`or`-default, exactly as in the source. -/
def fmpVals (raw : PyVal) :
    Option (PyFloat × PyVal × PyVal × PyVal × PyVal × PyVal) := do
  let res0 ← pyIndex0 (pyOr raw (.vlist [.vdict []]))
  let price ← getFloat res0 "price" .vnone
  let o ← pyGetD res0 "open" .vnone
  let h ← pyGetD res0 "dayHigh" .vnone
  let l ← pyGetD res0 "dayLow" .vnone
  let pc ← pyGetD res0 "previousClose" .vnone
  let ts ← pyGetD res0 "timestamp" .vnone
  pure (price, pyOr o (.vint 0), pyOr h (.vint 0), pyOr l (.vint 0),
        pyOr pc (.vint 0), pyOr ts .vnone)

/-- The `fmp` branch; `changePercent` is the literal `0.0`. -/
def fmpRecord (symbol provider : String) (raw : PyVal) :
    Option (List (String × PyVal)) :=
  (fmpVals raw).map fun (price, o, h, l, pc, ts) =>
    quoteRecord symbol provider (.vfloat price) (.vfloat (.fin 0)) o h l pc ts

/-- Function `normalize_quote(symbol, provider, raw)` from `src/main.py`: upper-case
the symbol, run the matching provider branch inside `try`, and fall back to
the minimal record on any exception or unknown provider. -/
def normalize_quote (symbol provider : String) (raw : PyVal) :
    List (String × PyVal) :=
  let symbol := symbol.toUpper
  (if provider == "alpha_vantage" then avRecord symbol provider raw
   else if provider == "finnhub" then fhRecord symbol provider raw
   else if provider == "twelve" then twRecord symbol provider raw
   else if provider == "polygon" then polyRecord symbol provider raw
   else if provider == "fmp" then fmpRecord symbol provider raw
   else Option.none).getD (fallbackRecord symbol provider)

/-- Outcome of one outbound provider HTTP call
(`requests.get` + `raise_for_status()` + `.json()`):
a decoded 2xx body, a `requests.HTTPError` whose response status may be
known, or any other transport/decoding exception. -/
inductive NetOutcome where
  | ok (raw : PyVal)
  | httpError (status : Option Nat) (msg : String)
  | transportError (msg : String)

/-- The environment oracle: `os.getenv`. -/
def EnvMap := String → Option String

/-- The network oracle: provider and (upper-cased) symbol determine the
outcome of the single outbound call that branch would make. -/
def Net := String → String → NetOutcome

/-- Python `if not key` on the result of `os.getenv`: true when the variable
is unset or set to the empty string. -/
def envTruthy (env : EnvMap) (k : String) : Bool :=
  match env k with
  | some s => !s.isEmpty
  | Option.none => false

/-- Result of the `/api/quote` handler: a normalized record, or an
`HTTPException` with its status code and detail string. -/
inductive QuoteOutcome where
  | ok (record : List (String × PyVal))
  | httpError (status : Nat) (detail : String)
deriving Repr

/-- The `try/except` tail of `get_quote`: translate the network outcome.
A `requests.HTTPError` re-raises as an `HTTPException` with the upstream
status when known, else 502; any other exception becomes a 500. -/
def handleNet (symbol provider : String) : NetOutcome → QuoteOutcome
  | .ok raw => .ok (normalize_quote symbol provider raw)
  | .httpError (some st) msg => .httpError st msg
  | .httpError Option.none msg => .httpError 502 msg
  | .transportError msg => .httpError 500 msg

/-- Function `get_quote(symbol, provider)` from `src/main.py`: lower-case the
provider, upper-case the symbol, check the provider's credential variable
(raising a 400 naming it when falsy), otherwise issue the call; unknown
providers raise `400 "Unsupported provider"`. -/
def get_quote (env : EnvMap) (net : Net) (symbol provider : String) :
    QuoteOutcome :=
  let provider := provider.toLower
  let symbol := symbol.toUpper
  if provider == "alpha_vantage" then
    if !envTruthy env "ALPHA_VANTAGE_API_KEY" then
      .httpError 400 "ALPHA_VANTAGE_API_KEY not set"
    else handleNet symbol provider (net provider symbol)
  else if provider == "finnhub" then
    if !envTruthy env "FINNHUB_API_KEY" then
      .httpError 400 "FINNHUB_API_KEY not set"
    else handleNet symbol provider (net provider symbol)
  else if provider == "twelve" then
    if !envTruthy env "TWELVE_DATA_API_KEY" then
      .httpError 400 "TWELVE_DATA_API_KEY not set"
    else handleNet symbol provider (net provider symbol)
  else if provider == "polygon" then
    if !envTruthy env "POLYGON_API_KEY" then
      .httpError 400 "POLYGON_API_KEY not set"
    else handleNet symbol provider (net provider symbol)
  else if provider == "fmp" then
    if !envTruthy env "FMP_API_KEY" then
      .httpError 400 "FMP_API_KEY not set"
    else handleNet symbol provider (net provider symbol)
  else .httpError 400 "Unsupported provider"

/-- The enumerated provider set of the spec. -/
def PROVIDERS : List String :=
  ["alpha_vantage", "finnhub", "twelve", "polygon", "fmp"]

/-- The credential environment variable of each supported provider. -/
def credVar : String → String
  | "alpha_vantage" => "ALPHA_VANTAGE_API_KEY"
  | "finnhub" => "FINNHUB_API_KEY"
  | "twelve" => "TWELVE_DATA_API_KEY"
  | "polygon" => "POLYGON_API_KEY"
  | "fmp" => "FMP_API_KEY"
  | _ => ""

/-- The comprehension `[s.strip().upper() for s in symbols.split(",") if s.strip()]` of the
`/api/tickers` handler. -/
def parseSymbols (symbols : String) : List String :=
  (symbols.splitOn ",").filterMap fun s =>
    if (trimWS s).isEmpty then Option.none else some (trimWS s).toUpper

/-- The `for s in syms` loop body of `get_tickers`: a successful quote is
appended as-is, an `HTTPException` is downgraded to
`{"symbol": s, "provider": provider, "error": e.detail}`. -/
def tickerItem (env : EnvMap) (net : Net) (provider s : String) : PyVal :=
  match get_quote env net s provider with
  | .ok record => .vdict record
  | .httpError _ detail =>
      .vdict [("symbol", .vstr s), ("provider", .vstr provider),
              ("error", .vstr detail)]

/-- The accumulation loop of `get_tickers`. -/
def tickersLoop (env : EnvMap) (net : Net) (provider : String) :
    List String → List PyVal
  | [] => []
  | s :: rest => tickerItem env net provider s :: tickersLoop env net provider rest

/-- Function `get_tickers(symbols, provider)` from `src/main.py` (the `"data"` list of
the response body). -/
def get_tickers (env : EnvMap) (net : Net) (symbols provider : String) :
    List PyVal :=
  tickersLoop env net provider (parseSymbols symbols)

/-! Helper lemmas about record lookups and the provider branches. -/

theorem lookup_symbol_quoteRecord (s p : String) (a cp o h l pc ts : PyVal) :
    List.lookup "symbol" (quoteRecord s p a cp o h l pc ts) = some (.vstr s) := rfl

theorem lookup_provider_quoteRecord (s p : String) (a cp o h l pc ts : PyVal) :
    List.lookup "provider" (quoteRecord s p a cp o h l pc ts) = some (.vstr p) := rfl

theorem lookup_price_quoteRecord (s p : String) (a cp o h l pc ts : PyVal) :
    List.lookup "price" (quoteRecord s p a cp o h l pc ts) = some a := rfl

theorem lookup_cp_quoteRecord (s p : String) (a cp o h l pc ts : PyVal) :
    List.lookup "changePercent" (quoteRecord s p a cp o h l pc ts) = some cp := rfl

theorem lookup_open_quoteRecord (s p : String) (a cp o h l pc ts : PyVal) :
    List.lookup "open" (quoteRecord s p a cp o h l pc ts) = some o := rfl

theorem lookup_prevClose_quoteRecord (s p : String) (a cp o h l pc ts : PyVal) :
    List.lookup "previousClose" (quoteRecord s p a cp o h l pc ts) = some pc := rfl

theorem lookup_symbol_fallback (s p : String) :
    List.lookup "symbol" (fallbackRecord s p) = some (.vstr s) := rfl

theorem lookup_provider_fallback (s p : String) :
    List.lookup "provider" (fallbackRecord s p) = some (.vstr p) := rfl

theorem lookup_price_fallback (s p : String) :
    List.lookup "price" (fallbackRecord s p) = some (.vfloat (.fin 0)) := rfl

theorem lookup_cp_fallback (s p : String) :
    List.lookup "changePercent" (fallbackRecord s p) = some (.vfloat (.fin 0)) := rfl

theorem lookup_open_fallback (s p : String) :
    List.lookup "open" (fallbackRecord s p) = Option.none := rfl

theorem normalize_quote_av (s : String) (raw : PyVal) :
    normalize_quote s "alpha_vantage" raw
      = (avRecord s.toUpper "alpha_vantage" raw).getD
          (fallbackRecord s.toUpper "alpha_vantage") := rfl

theorem normalize_quote_fh (s : String) (raw : PyVal) :
    normalize_quote s "finnhub" raw
      = (fhRecord s.toUpper "finnhub" raw).getD
          (fallbackRecord s.toUpper "finnhub") := rfl

theorem normalize_quote_tw (s : String) (raw : PyVal) :
    normalize_quote s "twelve" raw
      = (twRecord s.toUpper "twelve" raw).getD
          (fallbackRecord s.toUpper "twelve") := rfl

theorem normalize_quote_poly (s : String) (raw : PyVal) :
    normalize_quote s "polygon" raw
      = (polyRecord s.toUpper "polygon" raw).getD
          (fallbackRecord s.toUpper "polygon") := rfl

theorem normalize_quote_fmp (s : String) (raw : PyVal) :
    normalize_quote s "fmp" raw
      = (fmpRecord s.toUpper "fmp" raw).getD
          (fallbackRecord s.toUpper "fmp") := rfl

/-- In the polygon branch, `prev` is read from the same `"c"` field as
`close`, so a successful extraction always has them equal. -/
theorem polyNums_prev_eq_close {raw : PyVal} {c o h l pv : PyFloat} {ts : PyVal}
    (hp : polyNums raw = some (c, o, h, l, pv, ts)) : pv = c := by
  simp only [polyNums, bind, Option.bind_eq_some, Option.pure_def,
    Option.some.injEq] at hp
  obtain ⟨results, -, res0, -, close, hclose, o', -, h', -, l', -, prev, hprev,
    ts', -, heq⟩ := hp
  injection heq with e1 rest1
  injection rest1 with e2 rest2
  injection rest2 with e3 rest3
  injection rest3 with e4 rest4
  injection rest4 with e5 e6
  have hcp : close = prev := Option.some.inj (hclose.symm.trans hprev)
  rw [← e5, ← hcp, e1]

/-! Concrete evaluations of the provider branches on the empty payload. -/

theorem avNums_empty :
    avNums (.vdict [])
      = some (.fin 0, .fin 0, .fin 0, .fin 0, .fin 0, .fin 0, .vnone) := by
  with_unfolding_all rfl

theorem fhNums_empty :
    fhNums (.vdict [])
      = some (.fin 0, .fin 0, .fin 0, .fin 0, .fin 0, .fin 0, .vnone) := by
  with_unfolding_all rfl

theorem twNums_empty :
    twNums (.vdict [])
      = some (.fin 0, .fin 0, .fin 0, .fin 0, .fin 0, .fin 0, .vnone) := by
  with_unfolding_all rfl

theorem polyNums_empty :
    polyNums (.vdict []) = some (.fin 0, .fin 0, .fin 0, .fin 0, .fin 0, .vnone) := by
  with_unfolding_all rfl

theorem fmpVals_empty :
    fmpVals (.vdict [])
      = some (.fin 0, .vint 0, .vint 0, .vint 0, .vint 0, .vnone) := by
  with_unfolding_all rfl

/-- C1: for every provider identifier and every raw payload, `normalize_quote`
returns a record (never raises): its `price` and `changePercent` fields are
always present as floats; and normalizing the empty payload `{}` yields
`price = 0.0` and `changePercent = 0.0` for every provider. -/
theorem C1_normalize_never_fails :
    (∀ (s p : String) (raw : PyVal),
      (∃ q, List.lookup "price" (normalize_quote s p raw) = some (.vfloat q)) ∧
      (∃ q, List.lookup "changePercent" (normalize_quote s p raw)
          = some (.vfloat q))) ∧
    (∀ s p : String,
      List.lookup "price" (normalize_quote s p (.vdict [])) = some (.vfloat (.fin 0)) ∧
      List.lookup "changePercent" (normalize_quote s p (.vdict []))
          = some (.vfloat (.fin 0))) := by
  constructor
  · intro s p raw
    simp only [normalize_quote]
    split_ifs
    · rcases hav : avNums raw with _ | ⟨a, cp, o, h, l, pc, ts⟩ <;>
        simp [avRecord, hav, lookup_price_quoteRecord, lookup_cp_quoteRecord,
          lookup_price_fallback, lookup_cp_fallback]
    · rcases hfh : fhNums raw with _ | ⟨a, cp, o, h, l, pc, ts⟩ <;>
        simp [fhRecord, hfh, lookup_price_quoteRecord, lookup_cp_quoteRecord,
          lookup_price_fallback, lookup_cp_fallback]
    · rcases htw : twNums raw with _ | ⟨a, cp, o, h, l, pc, ts⟩ <;>
        simp [twRecord, htw, lookup_price_quoteRecord, lookup_cp_quoteRecord,
          lookup_price_fallback, lookup_cp_fallback]
    · rcases hpo : polyNums raw with _ | ⟨c, o, h, l, pv, ts⟩ <;>
        simp [polyRecord, hpo, lookup_price_quoteRecord, lookup_cp_quoteRecord,
          lookup_price_fallback, lookup_cp_fallback]
    · rcases hfm : fmpVals raw with _ | ⟨a, o, h, l, pc, ts⟩ <;>
        simp [fmpRecord, hfm, lookup_price_quoteRecord, lookup_cp_quoteRecord,
          lookup_price_fallback, lookup_cp_fallback]
    · simp [lookup_price_fallback, lookup_cp_fallback]
  · intro s p
    simp only [normalize_quote]
    split_ifs
    · simp [avRecord, avNums_empty, lookup_price_quoteRecord,
        lookup_cp_quoteRecord]
    · simp [fhRecord, fhNums_empty, lookup_price_quoteRecord,
        lookup_cp_quoteRecord]
    · simp [twRecord, twNums_empty, lookup_price_quoteRecord,
        lookup_cp_quoteRecord]
    · simp [polyRecord, polyNums_empty, lookup_price_quoteRecord,
        lookup_cp_quoteRecord, PyFloat.eqZero]
    · simp [fmpRecord, fmpVals_empty, lookup_price_quoteRecord,
        lookup_cp_quoteRecord]
    · simp [lookup_price_fallback, lookup_cp_fallback]

/-- C2 counterexample: an alpha_vantage payload whose `"02. open"` value is a
non-numeric string makes the branch raise, so the returned record is the
minimal fallback and has NO `open` field at all — contradicting the claim
that all numeric fields are always populated (never absent) as floats. -/
theorem C2_counterexample :
    List.lookup "open"
      (normalize_quote "aapl" "alpha_vantage"
        (.vdict [("Global Quote", .vdict [("02. open", .vstr "oops")])]))
      = Option.none := by with_unfolding_all rfl

/-- C2 amended: every record returned by `normalize_quote` has `symbol`
present and upper-cased, `provider` equal to the requested identifier, and
`price` and `changePercent` present as floats; the remaining numeric fields
are floats only on a successful non-fmp branch — they are absent from the
fallback record, and the fmp branch passes them through without float
coercion. -/
theorem C2_record_invariants :
    ∀ (s p : String) (raw : PyVal),
      List.lookup "symbol" (normalize_quote s p raw)
          = some (.vstr s.toUpper) ∧
      List.lookup "provider" (normalize_quote s p raw) = some (.vstr p) ∧
      (∃ q, List.lookup "price" (normalize_quote s p raw) = some (.vfloat q)) ∧
      (∃ q, List.lookup "changePercent" (normalize_quote s p raw)
          = some (.vfloat q)) := by
  intro s p raw
  simp only [normalize_quote]
  split_ifs
  · rcases hav : avNums raw with _ | ⟨a, cp, o, h, l, pc, ts⟩ <;>
      simp [avRecord, hav, lookup_symbol_quoteRecord, lookup_provider_quoteRecord,
        lookup_price_quoteRecord, lookup_cp_quoteRecord, lookup_symbol_fallback,
        lookup_provider_fallback, lookup_price_fallback, lookup_cp_fallback]
  · rcases hfh : fhNums raw with _ | ⟨a, cp, o, h, l, pc, ts⟩ <;>
      simp [fhRecord, hfh, lookup_symbol_quoteRecord, lookup_provider_quoteRecord,
        lookup_price_quoteRecord, lookup_cp_quoteRecord, lookup_symbol_fallback,
        lookup_provider_fallback, lookup_price_fallback, lookup_cp_fallback]
  · rcases htw : twNums raw with _ | ⟨a, cp, o, h, l, pc, ts⟩ <;>
      simp [twRecord, htw, lookup_symbol_quoteRecord, lookup_provider_quoteRecord,
        lookup_price_quoteRecord, lookup_cp_quoteRecord, lookup_symbol_fallback,
        lookup_provider_fallback, lookup_price_fallback, lookup_cp_fallback]
  · rcases hpo : polyNums raw with _ | ⟨c, o, h, l, pv, ts⟩ <;>
      simp [polyRecord, hpo, lookup_symbol_quoteRecord, lookup_provider_quoteRecord,
        lookup_price_quoteRecord, lookup_cp_quoteRecord, lookup_symbol_fallback,
        lookup_provider_fallback, lookup_price_fallback, lookup_cp_fallback]
  · rcases hfm : fmpVals raw with _ | ⟨a, o, h, l, pc, ts⟩ <;>
      simp [fmpRecord, hfm, lookup_symbol_quoteRecord, lookup_provider_quoteRecord,
        lookup_price_quoteRecord, lookup_cp_quoteRecord, lookup_symbol_fallback,
        lookup_provider_fallback, lookup_price_fallback, lookup_cp_fallback]
  · simp [lookup_symbol_fallback, lookup_provider_fallback,
      lookup_price_fallback, lookup_cp_fallback]

/-- C3 counterexample: the ordinary JSON payload
`{"results": [{"c": "inf"}]}` makes `float("inf")` succeed, so
`close = prev = inf`, the `prev == 0` guard fails, and
`((inf - inf) / inf) * 100` is nan — `changePercent` is nan, not 0.0,
refuting "changePercent equal to 0.0 for every raw payload whatsoever". -/
theorem C3_polygon_counterexample_inf :
    List.lookup "changePercent"
      (normalize_quote "a" "polygon"
        (.vdict [("results", .vlist [.vdict [("c", .vstr "inf")]])]))
      = some (.vfloat .nan) ∧
    ¬ (List.lookup "changePercent"
        (normalize_quote "a" "polygon"
          (.vdict [("results", .vlist [.vdict [("c", .vstr "inf")]])]))
        = some (.vfloat (.fin 0))) := by
  have h1 : List.lookup "changePercent"
      (normalize_quote "a" "polygon"
        (.vdict [("results", .vlist [.vdict [("c", .vstr "inf")]])]))
      = some (.vfloat .nan) := by with_unfolding_all rfl
  refine ⟨h1, ?_⟩
  intro h2
  rw [h1] at h2
  simp at h2

/-- C3 amended: for the polygon provider, `changePercent` is 0.0 for every
raw payload whose substituted close extracts to a finite float (the
`(close - prev) / prev` identity, the guard, and the fallback all give 0.0),
and is nan when the close extracts to a non-finite float (`inf`, `-inf` or
`nan`); it is never a nonzero finite number. -/
theorem C3_polygon_cp_zero_or_nan :
    ∀ (s : String) (raw : PyVal),
      (List.lookup "changePercent" (normalize_quote s "polygon" raw)
          = some (.vfloat (.fin 0)) ∨
       List.lookup "changePercent" (normalize_quote s "polygon" raw)
          = some (.vfloat .nan)) ∧
      (∀ (q : Rat) (o h l pv : PyFloat) (ts : PyVal),
        polyNums raw = some (.fin q, o, h, l, pv, ts) →
        List.lookup "changePercent" (normalize_quote s "polygon" raw)
          = some (.vfloat (.fin 0))) := by
  intro s raw
  constructor
  · rw [normalize_quote_poly]
    rcases hp : polyNums raw with _ | ⟨c, o, h, l, pv, ts⟩
    · left
      simp [polyRecord, hp, lookup_cp_fallback]
    · have hpc : pv = c := polyNums_prev_eq_close hp
      subst hpc
      rcases pv with q | _ | _ | _
      · by_cases hq : q = 0
        · left
          simp [polyRecord, hp, lookup_cp_quoteRecord, PyFloat.eqZero, hq]
        · left
          simp [polyRecord, hp, lookup_cp_quoteRecord, PyFloat.eqZero, hq,
            PyFloat.sub, PyFloat.div, PyFloat.mul]
      · right
        simp [polyRecord, hp, lookup_cp_quoteRecord, PyFloat.eqZero,
          PyFloat.sub, PyFloat.div, PyFloat.mul]
      · right
        simp [polyRecord, hp, lookup_cp_quoteRecord, PyFloat.eqZero,
          PyFloat.sub, PyFloat.div, PyFloat.mul]
      · right
        simp [polyRecord, hp, lookup_cp_quoteRecord, PyFloat.eqZero,
          PyFloat.sub, PyFloat.div, PyFloat.mul]
  · intro q o h l pv ts hp
    have hpc : pv = .fin q := polyNums_prev_eq_close hp
    subst hpc
    rw [normalize_quote_poly]
    by_cases hq : q = 0 <;>
      simp [polyRecord, hp, lookup_cp_quoteRecord, PyFloat.eqZero, hq,
        PyFloat.sub, PyFloat.div, PyFloat.mul]

theorem C3_polygon_cp_zero_or_nan_witness :
    polyNums (.vdict [("results", .vlist [.vdict [("c", .vstr "7.5")]])])
      = some (.fin (15 / 2), .fin 0, .fin 0, .fin 0, .fin (15 / 2), .vnone) ∧
    List.lookup "changePercent"
      (normalize_quote "a" "polygon"
        (.vdict [("results", .vlist [.vdict [("c", .vstr "7.5")]])]))
      = some (.vfloat (.fin 0)) := by
  have hp : polyNums (.vdict [("results", .vlist [.vdict [("c", .vstr "7.5")]])])
      = some (.fin (15 / 2), .fin 0, .fin 0, .fin 0, .fin (15 / 2), .vnone) := by
    with_unfolding_all rfl
  exact ⟨hp, (C3_polygon_cp_zero_or_nan "a" _).2 (15 / 2) (.fin 0) (.fin 0)
    (.fin 0) (.fin (15 / 2)) .vnone hp⟩

/-- C6: for the fmp provider, `changePercent` is 0.0 for every raw payload:
the successful branch hard-codes 0.0 and the fallback also reports 0.0. -/
theorem C6_fmp_cp_always_zero :
    ∀ (s : String) (raw : PyVal),
      List.lookup "changePercent" (normalize_quote s "fmp" raw)
        = some (.vfloat (.fin 0)) := by
  intro s raw
  rw [normalize_quote_fmp]
  rcases hf : fmpVals raw with _ | ⟨a, o, h, l, pc, ts⟩
  · simp [fmpRecord, hf, lookup_cp_fallback]
  · simp [fmpRecord, hf, lookup_cp_quoteRecord]

/-- C7: for alpha_vantage, the percent-change string has its `%` suffix
stripped before parsing, so `"1.23%"` normalizes to the number 1.23. -/
theorem C7_av_percent_suffix_stripped :
    ∀ s : String,
      List.lookup "changePercent"
        (normalize_quote s "alpha_vantage"
          (.vdict [("Global Quote",
            .vdict [("10. change percent", .vstr "1.23%")])]))
        = some (.vfloat (.fin (123 / 100))) := by
  intro s
  rw [normalize_quote_av]
  have hav : avNums (.vdict [("Global Quote",
      .vdict [("10. change percent", .vstr "1.23%")])])
      = some (.fin 0, .fin (123 / 100), .fin 0, .fin 0, .fin 0, .fin 0, .vnone) := by
    with_unfolding_all rfl
  simp [avRecord, hav, lookup_cp_quoteRecord]

/-- Evaluation of the alpha_vantage branch on a payload whose only field is
`"02. open"`: every other field coerces to 0, and the branch outcome is
exactly the outcome of coercing that one value. -/
theorem avNums_open_probe (v : PyVal) :
    avNums (.vdict [("Global Quote", .vdict [("02. open", v)])])
      = (pyFloat (pyOr v (.vint 0))).bind
          (fun o => some (.fin 0, .fin 0, o, .fin 0, .fin 0, .fin 0, .vnone)) := by
  with_unfolding_all rfl

/-- C4 counterexample: with `"05. price": "12"` and `"02. open": "bad"` under
alpha_vantage, the claim's per-field coercion would give `price = 12.0` and
`open = 0.0`; the code instead aborts the whole branch, returning the minimal
fallback where `price = 0.0` and `open` is absent altogether. -/
theorem C4_counterexample_branch_fallback :
    List.lookup "open"
      (normalize_quote "aapl" "alpha_vantage"
        (.vdict [("Global Quote",
          .vdict [("05. price", .vstr "12"), ("02. open", .vstr "bad")])]))
      = Option.none ∧
    List.lookup "price"
      (normalize_quote "aapl" "alpha_vantage"
        (.vdict [("Global Quote",
          .vdict [("05. price", .vstr "12"), ("02. open", .vstr "bad")])]))
      = some (.vfloat (.fin 0)) := by
  constructor <;> with_unfolding_all rfl

/-- C4 amended: absent/null/empty values are treated as 0 before parsing, and
a value that fails to parse never raises outward — but instead of coercing
only the failing field to 0.0, the exception aborts the provider branch and
the whole record falls back to the minimal
`{symbol, provider, price: 0.0, changePercent: 0.0}`. -/
theorem C4_unparsable_field_causes_fallback :
    (∀ (s : String) (v : PyVal),
      pyFloat (pyOr v (.vint 0)) = Option.none →
      normalize_quote s "alpha_vantage"
        (.vdict [("Global Quote", .vdict [("02. open", v)])])
        = fallbackRecord s.toUpper "alpha_vantage") ∧
    (∀ s : String,
      List.lookup "open" (normalize_quote s "finnhub" (.vdict []))
        = some (.vfloat (.fin 0))) := by
  constructor
  · intro s v hv
    rw [normalize_quote_av]
    simp [avRecord, avNums_open_probe, hv]
  · intro s
    rw [normalize_quote_fh]
    simp [fhRecord, fhNums_empty, lookup_open_quoteRecord]

theorem C4_unparsable_field_causes_fallback_witness :
    pyFloat (pyOr (.vstr "bad") (.vint 0)) = Option.none ∧
    normalize_quote "aapl" "alpha_vantage"
      (.vdict [("Global Quote", .vdict [("02. open", .vstr "bad")])])
      = fallbackRecord "AAPL" "alpha_vantage" := by
  refine ⟨by with_unfolding_all rfl, ?_⟩
  have h := C4_unparsable_field_causes_fallback.1 "aapl" (.vstr "bad")
    (by with_unfolding_all rfl)
  have e : ("aapl" : String).toUpper = "AAPL" := by with_unfolding_all rfl
  rw [e] at h
  exact h

/-- C5: for polygon, whenever the extracted (substituted) previous close is 0
the guard forces `changePercent = 0.0` instead of dividing, and the record
reports `previousClose = 0.0`. -/
theorem C5_polygon_zero_prev_guard :
    ∀ (s : String) (raw : PyVal) (c o h l : PyFloat) (ts : PyVal),
      polyNums raw = some (c, o, h, l, .fin 0, ts) →
      List.lookup "changePercent" (normalize_quote s "polygon" raw)
        = some (.vfloat (.fin 0)) ∧
      List.lookup "previousClose" (normalize_quote s "polygon" raw)
        = some (.vfloat (.fin 0)) := by
  intro s raw c o h l ts hp
  rw [normalize_quote_poly]
  constructor <;>
    simp [polyRecord, hp, lookup_cp_quoteRecord, lookup_prevClose_quoteRecord,
      PyFloat.eqZero]

theorem C5_polygon_zero_prev_guard_witness :
    polyNums (.vdict [("results", .vlist [.vdict [("o", .vint 5)]])])
      = some (.fin 0, .fin 5, .fin 0, .fin 0, .fin 0, .vnone) ∧
    List.lookup "changePercent"
      (normalize_quote "spy" "polygon"
        (.vdict [("results", .vlist [.vdict [("o", .vint 5)]])]))
      = some (.vfloat (.fin 0)) := by
  have hp : polyNums (.vdict [("results", .vlist [.vdict [("o", .vint 5)]])])
      = some (.fin 0, .fin 5, .fin 0, .fin 0, .fin 0, .vnone) := by
    with_unfolding_all rfl
  exact ⟨hp, (C5_polygon_zero_prev_guard "spy" _ (.fin 0) (.fin 5) (.fin 0)
    (.fin 0) .vnone hp).1⟩

/-- The batch loop is a per-symbol map. -/
theorem tickersLoop_eq_map (env : EnvMap) (net : Net) (provider : String)
    (l : List String) :
    tickersLoop env net provider l = l.map (tickerItem env net provider) := by
  induction l with
  | nil => rfl
  | cons a t ih => simp [tickersLoop, ih]

/-- C8: the batch handler returns one result per trimmed, upper-cased,
non-empty token, in input order; element `i` is determined by token `i`
alone — a successful quote verbatim, or the error record
`{symbol, provider, error}` when that symbol's fetch raised — so one
symbol's failure never aborts or alters any other symbol's result. -/
theorem C8_batch_per_symbol :
    ∀ (env : EnvMap) (net : Net) (symbols provider : String),
      (get_tickers env net symbols provider).length
        = (parseSymbols symbols).length ∧
      ∀ i : Nat,
        (get_tickers env net symbols provider)[i]?
          = ((parseSymbols symbols)[i]?).map (fun s =>
              match get_quote env net s provider with
              | .ok record => PyVal.vdict record
              | .httpError _ detail =>
                  PyVal.vdict [("symbol", .vstr s), ("provider", .vstr provider),
                               ("error", .vstr detail)]) := by
  intro env net symbols provider
  constructor
  · simp [get_tickers, tickersLoop_eq_map]
  · intro i
    simp only [get_tickers, tickersLoop_eq_map, List.getElem?_map]
    rfl

/-- C9: an unknown provider yields a 400 "Unsupported provider" and a
supported provider with its credential variable unset yields a 400 naming
the variable; both are independent of the network oracle (no call is made). -/
theorem C9_provider_and_credential_errors :
    (∀ (env : EnvMap) (net : Net) (s p : String),
      p.toLower ∉ PROVIDERS →
      get_quote env net s p = .httpError 400 "Unsupported provider") ∧
    (∀ (env : EnvMap) (net : Net) (s p : String),
      p.toLower ∈ PROVIDERS → env (credVar p.toLower) = Option.none →
      get_quote env net s p = .httpError 400 (credVar p.toLower ++ " not set")) := by
  constructor
  · intro env net s p hmem
    simp only [PROVIDERS, List.mem_cons, List.not_mem_nil, or_false,
      not_or] at hmem
    obtain ⟨h1, h2, h3, h4, h5⟩ := hmem
    simp [get_quote, h1, h2, h3, h4, h5]
  · intro env net s p hmem henv
    have henvF : envTruthy env (credVar p.toLower) = false := by
      simp [envTruthy, henv]
    simp only [PROVIDERS, List.mem_cons, List.not_mem_nil, or_false] at hmem
    rcases hmem with h | h | h | h | h <;>
      (rw [h] at henvF; simp only [credVar] at henvF;
       simp [get_quote, h, credVar, henvF])

theorem C9_provider_and_credential_errors_witness :
    (("bogus" : String).toLower ∉ PROVIDERS) ∧
    get_quote (fun _ => Option.none) (fun _ _ => .transportError "t") "TSLA" "bogus"
      = .httpError 400 "Unsupported provider" ∧
    (("finnhub" : String).toLower ∈ PROVIDERS) ∧
    ((fun _ => Option.none : EnvMap) (credVar ("finnhub" : String).toLower)
      = Option.none) ∧
    get_quote (fun _ => Option.none) (fun _ _ => .transportError "t") "TSLA" "finnhub"
      = .httpError 400 (credVar ("finnhub" : String).toLower ++ " not set") := by
  have hb : ("bogus" : String).toLower = "bogus" := by with_unfolding_all rfl
  have hf : ("finnhub" : String).toLower = "finnhub" := by with_unfolding_all rfl
  have h1 : ("bogus" : String).toLower ∉ PROVIDERS := by
    rw [hb]; decide
  have h3 : ("finnhub" : String).toLower ∈ PROVIDERS := by
    rw [hf]; decide
  have h4 : ((fun _ => Option.none : EnvMap) (credVar ("finnhub" : String).toLower)
      = Option.none) := rfl
  exact ⟨h1,
    C9_provider_and_credential_errors.1 (fun _ => Option.none)
      (fun _ _ => .transportError "t") "TSLA" "bogus" h1,
    h3, h4,
    C9_provider_and_credential_errors.2 (fun _ => Option.none)
      (fun _ _ => .transportError "t") "TSLA" "finnhub" h3 h4⟩

/-- Splitting then keeping only non-blank trimmed tokens, as a filter+map. -/
theorem filterMap_trim_tokens (l : List String) :
    (l.filterMap fun s =>
        if (trimWS s).isEmpty then Option.none else some (trimWS s).toUpper)
      = (l.filter fun s => !(trimWS s).isEmpty).map fun s => (trimWS s).toUpper := by
  induction l with
  | nil => rfl
  | cons a t ih =>
    by_cases ha : (trimWS a).isEmpty <;>
      simp [List.filterMap_cons, List.filter_cons, ha, ih]

/-- C10: the batch endpoint splits on commas and silently drops blank tokens,
so the number of results equals the number of non-empty trimmed tokens; in
particular `symbols = "TSLA,,AAPL,"` yields exactly two results. -/
theorem C10_blank_tokens_dropped :
    (∀ (env : EnvMap) (net : Net) (symbols provider : String),
      (get_tickers env net symbols provider).length
        = ((symbols.splitOn ",").filter fun t => !(trimWS t).isEmpty).length) ∧
    (∀ (env : EnvMap) (net : Net) (provider : String),
      (get_tickers env net "TSLA,,AAPL," provider).length = 2) := by
  have hlen : ∀ (env : EnvMap) (net : Net) (symbols provider : String),
      (get_tickers env net symbols provider).length
        = ((symbols.splitOn ",").filter fun t => !(trimWS t).isEmpty).length := by
    intro env net symbols provider
    simp [get_tickers, tickersLoop_eq_map, parseSymbols, filterMap_trim_tokens]
  refine ⟨hlen, ?_⟩
  intro env net provider
  rw [hlen]
  with_unfolding_all rfl
